import Mathlib

set_option maxRecDepth 10000

/-!
Verification development for the phishing-detection pipeline
(candidate generation, risk scoring, deduplication, long-term monitoring).

The definitions below are shallow embeddings of the Python source in
`backend/`: pure functions are translated to Lean functions over `List Char`
strings, integer timestamps, and exact rationals (`ℚ`) in place of Python
floats.  Each definition's doc comment names the Python function it embeds.
-/

/-! ## Domain variation generator (`backend/domain_generator.py`) -/

/-- A generated variation: the Python dict `{'domain': ..., 'type': ...}`
returned by `DomainVariationGenerator._create_variation_dict`. -/
structure Variation where
  domain : String
  type : String
deriving DecidableEq, Repr

/-- CHAR_SUBSTITUTIONS table from DomainVariationGenerator (visually similar replacements; values are strings, some multi-character). -/
def CHAR_SUBSTITUTIONS : List (Char × List String) := [
  ('a', ["@", "4", "q"]),
  ('b', ["8", "d", "p"]),
  ('c', ["e", "("]),
  ('d', ["b", "cl"]),
  ('e', ["3", "c"]),
  ('f', ["t"]),
  ('g', ["9", "q"]),
  ('h', ["n"]),
  ('i', ["1", "l", "!", "j"]),
  ('j', ["i"]),
  ('k', ["x"]),
  ('l', ["1", "i", "|"]),
  ('m', ["n", "rn"]),
  ('n', ["m", "h"]),
  ('o', ["0", "q"]),
  ('p', ["b", "d"]),
  ('q', ["g", "o"]),
  ('r', ["n"]),
  ('s', ["5", "$", "z"]),
  ('t', ["f", "+"]),
  ('u', ["v", "w"]),
  ('v', ["u", "w"]),
  ('w', ["vv", "u"]),
  ('x', ["k"]),
  ('y', ["v"]),
  ('z', ["s", "2"])
]

/-- IDN_HOMOGRAPHS table from DomainVariationGenerator, duplicates preserved exactly as in the source (note: the entries for l and z are plain ASCII). -/
def IDN_HOMOGRAPHS : List (Char × List String) := [
  ('a', ["а", "ɑ", "α", "а"]),
  ('b', ["Ь", "ь", "Ƅ", "ƅ"]),
  ('c', ["с", "ϲ", "Ϲ", "ⅽ"]),
  ('d', ["ԁ", "ⅾ", "ⅆ", "ⅅ"]),
  ('e', ["е", "е", "ε", "ε"]),
  ('f', ["Ϝ", "ϝ", "ƒ", "ſ"]),
  ('g', ["ɡ", "ց", "ց", "ց"]),
  ('h', ["һ", "հ", "հ", "հ"]),
  ('i', ["і", "і", "ι", "ι"]),
  ('j', ["ј", "ј", "ϳ", "ϳ"]),
  ('k', ["к", "к", "κ", "κ"]),
  ('l', ["l", "l", "ι", "ι"]),
  ('m', ["м", "м", "μ", "μ"]),
  ('n', ["п", "п", "η", "η"]),
  ('o', ["о", "о", "ο", "ο"]),
  ('p', ["р", "р", "ρ", "ρ"]),
  ('q', ["ԛ", "ԛ", "ԛ", "ԛ"]),
  ('r', ["г", "г", "г", "г"]),
  ('s', ["ѕ", "ѕ", "ѕ", "ѕ"]),
  ('t', ["т", "т", "τ", "τ"]),
  ('u', ["υ", "υ", "υ", "υ"]),
  ('v', ["ν", "ν", "ν", "ν"]),
  ('w', ["ω", "ω", "ω", "ω"]),
  ('x', ["х", "х", "χ", "χ"]),
  ('y', ["у", "у", "γ", "γ"]),
  ('z', ["z", "z", "z", "z"])
]

/-- KEYBOARD_PROXIMITY table from DomainVariationGenerator (QWERTY adjacency). -/
def KEYBOARD_PROXIMITY : List (Char × List Char) := [
  ('a', ['s', 'q', 'w', 'z']),
  ('b', ['v', 'g', 'h', 'n']),
  ('c', ['x', 'd', 'f', 'v']),
  ('d', ['s', 'e', 'r', 'f', 'c', 'x']),
  ('e', ['w', 'r', 'd', 's']),
  ('f', ['d', 'r', 't', 'g', 'v', 'c']),
  ('g', ['f', 't', 'y', 'h', 'b', 'v']),
  ('h', ['g', 'y', 'u', 'j', 'n', 'b']),
  ('i', ['u', 'o', 'k', 'j']),
  ('j', ['h', 'u', 'i', 'k', 'n', 'm']),
  ('k', ['j', 'i', 'o', 'l', 'm']),
  ('l', ['k', 'o', 'p']),
  ('m', ['n', 'j', 'k']),
  ('n', ['b', 'h', 'j', 'm']),
  ('o', ['i', 'p', 'l', 'k']),
  ('p', ['o', 'l']),
  ('q', ['w', 'a']),
  ('r', ['e', 't', 'f', 'd']),
  ('s', ['a', 'w', 'e', 'd', 'x', 'z']),
  ('t', ['r', 'y', 'g', 'f']),
  ('u', ['y', 'i', 'j', 'h']),
  ('v', ['c', 'f', 'g', 'b']),
  ('w', ['q', 'e', 's', 'a']),
  ('x', ['z', 's', 'd', 'c']),
  ('y', ['t', 'u', 'h', 'g']),
  ('z', ['a', 's', 'x'])
]

/-- COMBO_KEYWORDS list from DomainVariationGenerator. -/
def COMBO_KEYWORDS : List String := ["secure", "login", "verify", "account", "auth", "user", "online", "banking", "portal", "web", "mail", "service", "support", "help", "official", "app", "mobile"]

/-- HOMOGRAPHS table from DomainVariationGenerator (comprehensive homograph lookalikes; note the first entry for l is plain ASCII l). -/
def HOMOGRAPHS : List (Char × List String) := [
  ('a', ["а", "ạ", "ă", "ā", "à", "á", "â", "ã", "ä", "å", "æ"]),
  ('b', ["Ь", "ь", "ƃ", "ƅ"]),
  ('c', ["с", "ċ", "ç", "ć", "č", "ĉ", "ċ", "ƈ"]),
  ('d', ["ԁ", "đ", "ď", "ƌ", "Ɗ"]),
  ('e', ["е", "ė", "é", "è", "ê", "ë", "ē", "ĕ", "ė", "ę", "ě", "Ə"]),
  ('f', ["ƒ", "ſ"]),
  ('g', ["ɡ", "ġ", "ģ", "ĝ", "ğ", "ǧ", "ǵ", "Ɠ"]),
  ('h', ["һ", "ĥ", "ħ", "ƕ"]),
  ('i', ["і", "ı", "í", "ì", "î", "ï", "ī", "ĭ", "į", "ı", "Ɨ"]),
  ('j', ["ј", "ĵ", "ǰ", "ɉ"]),
  ('k', ["к", "ķ", "ĸ", "ǩ", "ƙ"]),
  ('l', ["l", "ĺ", "ļ", "ľ", "ŀ", "ł", "ƚ"]),
  ('m', ["м", "ɱ", "Ɯ"]),
  ('n', ["п", "ń", "ņ", "ň", "ŉ", "ŋ", "ƞ", "Ɲ"]),
  ('o', ["о", "ọ", "ó", "ò", "ô", "õ", "ö", "ø", "ō", "ŏ", "ő", "Ɵ", "Ơ"]),
  ('p', ["р", "ƥ", "Ƥ"]),
  ('q', ["ԛ", "ɋ"]),
  ('r', ["г", "ŕ", "ŗ", "ř", "Ʀ"]),
  ('s', ["ѕ", "ś", "ŝ", "ş", "š", "ƨ", "Ƨ"]),
  ('t', ["т", "ť", "ţ", "ŧ", "ƫ", "Ƭ"]),
  ('u', ["υ", "ú", "ù", "û", "ü", "ū", "ŭ", "ů", "ű", "ų", "Ʊ", "Ʋ"]),
  ('v', ["ν", "ѵ", "Ʋ"]),
  ('w', ["ω", "ŵ", "Ɯ"]),
  ('x', ["х", "χ", "Ƶ"]),
  ('y', ["у", "ý", "ÿ", "ŷ", "ƴ"]),
  ('z', ["ź", "ż", "ž", "ƶ", "Ƶ"]),
  ('0', ["O", "о", "Ο", "ο", "О", "о"]),
  ('1', ["l", "I", "|", "ι", "Ι", "І", "і"]),
  ('2', ["ƻ", "ƨ"]),
  ('3', ["Ʒ", "Ƹ"]),
  ('4', ["Ƽ"]),
  ('5', ["ƽ", "ƾ"]),
  ('6', ["ƅ"]),
  ('7', ["ƻ"]),
  ('8', ["Ƹ", "ƹ"]),
  ('9', ["ƺ", "ƻ"])
]

/-- COMMON_TLDS list from DomainVariationGenerator, transcribed entry-for-entry including duplicates and the merged literal tkio produced by a missing comma in the source. -/
def COMMON_TLDS : List String := [
  "com", "net", "org", "info", "biz", "name", "pro", "mobi", "tel", "asia",
  "xxx", "travel", "jobs", "coop", "aero", "cat", "museum", "post", "xyz", "top",
  "site", "online", "club", "shop", "store", "tech", "app", "blog", "news", "media",
  "email", "web", "website", "space", "live", "studio", "digital", "network", "systems", "solutions",
  "services", "company", "business", "enterprises", "management", "consulting", "marketing", "technology", "software", "cloud",
  "hosting", "domains", "games", "play", "casino", "bet", "poker", "racing", "sport", "fitness",
  "health", "care", "dental", "clinic", "surgery", "hospital", "pharmacy", "education", "academy", "training",
  "university", "college", "school", "finance", "bank", "credit", "loan", "money", "cash", "capital",
  "invest", "insurance", "financial", "accountant", "tax", "fund", "trading", "food", "restaurant", "bar",
  "cafe", "menu", "recipes", "cooking", "fashion", "clothing", "shoes", "jewelry", "beauty", "boutique",
  "realestate", "property", "homes", "house", "apartments", "rentals", "travel", "hotel", "flights", "tours",
  "vacation", "cruise", "tickets", "auto", "car", "cars", "bike", "motorcycles", "parts", "repair",
  "photo", "photography", "pics", "pictures", "gallery", "camera", "video", "film", "movie", "tv",
  "audio", "music", "band", "radio", "art", "design", "graphics", "creative", "artist", "gallery",
  "social", "community", "forum", "chat", "dating", "singles", "wedding", "legal", "lawyer", "attorney",
  "law", "attorney", "claims", "construction", "builders", "contractors", "plumbing", "electrical", "security", "protection",
  "safety", "alarm", "defense", "pizza", "wine", "beer", "vodka", "coffee", "tea", "black",
  "blue", "green", "pink", "red", "gold", "silver", "one", "plus", "best", "new",
  "now", "today", "world", "global", "life", "love", "fun", "cool", "vip", "guru",
  "ninja", "expert", "click", "link", "download", "stream", "watch", "buy", "sale", "discount",
  "deals", "coupons", "promo", "offers", "in", "us", "uk", "ca", "au", "de",
  "fr", "it", "es", "nl", "be", "ch", "at", "se", "no", "dk",
  "fi", "pl", "cz", "hu", "ro", "bg", "gr", "pt", "ie", "ru",
  "ua", "by", "kz", "uz", "am", "az", "ge", "md", "tj", "tm",
  "cn", "jp", "kr", "tw", "hk", "sg", "my", "th", "vn", "ph",
  "id", "pk", "bd", "lk", "np", "bt", "mv", "af", "ir", "iq",
  "il", "sa", "ae", "qa", "kw", "bh", "om", "ye", "jo", "lb",
  "sy", "tr", "eg", "ma", "dz", "tn", "ly", "sd", "et", "ke",
  "tz", "ug", "za", "ng", "gh", "ci", "sn", "cm", "ao", "mz",
  "zw", "na", "bw", "zm", "br", "mx", "ar", "cl", "co", "pe",
  "ve", "ec", "bo", "py", "uy", "cr", "pa", "gt", "hn", "sv",
  "ni", "do", "cu", "jm", "ht", "tt", "nz", "fj", "pg", "nc",
  "pf", "ck", "ws", "to", "tv", "nu", "tkio", "co", "me", "ai",
  "gg", "im", "je", "ac", "sh", "cx", "cc", "ws", "bz", "ag",
  "sc", "mn", "la", "fm", "am", "cd", "dj", "to", "tk", "ml",
  "ga", "cf", "gq", "pw", "vu", "sb", "ki", "nr", "gl", "fo",
  "aw", "eu", "asia", "africa", "lat", "arab", "design", "dev", "run", "codes",
  "work", "agency", "directory", "support", "help", "guide", "center", "wiki", "tips", "zone",
  "today", "reviews", "feedback", "press", "report", "events", "foundation", "institute", "center", "international",
  "group"
]

/-- Assoc-list lookup mirroring the Python dict operations
`char in TABLE` / `TABLE[char]` (keys in the source dicts are distinct,
so `find?` has exactly the dict semantics). -/
def lookupTable (t : List (Char × List String)) (c : Char) : Option (List String) :=
  (t.find? (fun p => p.1 == c)).map (·.2)

/-- Lookup in the keyboard-adjacency table (values are single characters). -/
def lookupKeyboard (t : List (Char × List Char)) (c : Char) : Option (List Char) :=
  (t.find? (fun p => p.1 == c)).map (·.2)

/-- Python slice-splice `name[:i] + s + name[i+1:]` on the character list of
the registrable name. -/
def replaceAt (name : List Char) (i : Nat) (s : List Char) : List Char :=
  name.take i ++ s ++ name.drop (i+1)

/-- String from a character list. -/
def mkStr (cs : List Char) : String := String.mk cs

/-- Embeds `_typosquatting_omission`: for each position `i` of the registrable
name, drop the character at `i` (guarded by the source's constant loop
condition `len(self.domain_name) > 3`). -/
def typosquatting_omission (name tld : String) : List Variation :=
  (List.range name.toList.length).flatMap (fun i =>
    if name.toList.length > 3 then
      [⟨mkStr (name.toList.take i ++ name.toList.drop (i+1)) ++ "." ++ tld, "typosquatting_omission"⟩]
    else [])

/-- Embeds `_typosquatting_repetition`: `name[:i] + name[i] + name[i:]`
(the character at `i` is the head of `drop i`). -/
def typosquatting_repetition (name tld : String) : List Variation :=
  (List.range name.toList.length).map (fun i =>
    ⟨mkStr (name.toList.take i ++ (name.toList.drop i).take 1 ++ name.toList.drop i) ++ "." ++ tld,
      "typosquatting_repetition"⟩)

/-- Embeds `_typosquatting_substitution`: for each character with an entry in
`CHAR_SUBSTITUTIONS`, substitute each replacement string. -/
def typosquatting_substitution (name tld : String) : List Variation :=
  name.toList.enum.flatMap (fun p =>
    match lookupTable CHAR_SUBSTITUTIONS p.2 with
    | some subs => subs.map (fun sub =>
        ⟨mkStr (replaceAt name.toList p.1 sub.toList) ++ "." ++ tld, "typosquatting_substitution"⟩)
    | none => [])

/-- Embeds `_typosquatting_insertion`: textually the same construction as
`_typosquatting_repetition` (the source duplicates the character at each
position in both methods), differing only in the technique tag. -/
def typosquatting_insertion (name tld : String) : List Variation :=
  (List.range name.toList.length).map (fun i =>
    ⟨mkStr (name.toList.take i ++ (name.toList.drop i).take 1 ++ name.toList.drop i) ++ "." ++ tld,
      "typosquatting_insertion"⟩)

/-- Embeds `_idn_homograph_attacks`: for each character (lower-cased) with an
entry in `IDN_HOMOGRAPHS`, substitute the first two homographs (`[:2]`). -/
def idn_homograph_attacks (name tld : String) : List Variation :=
  name.toList.enum.flatMap (fun p =>
    match lookupTable IDN_HOMOGRAPHS p.2.toLower with
    | some hs => (hs.take 2).map (fun h =>
        ⟨mkStr (replaceAt name.toList p.1 h.toList) ++ "." ++ tld, "idn_homograph"⟩)
    | none => [])

/-- Embeds `_keyboard_proximity`: substitute each QWERTY-adjacent character,
skipping a replacement equal to the original character. -/
def keyboard_proximity_variations (name tld : String) : List Variation :=
  name.toList.enum.flatMap (fun p =>
    match lookupKeyboard KEYBOARD_PROXIMITY p.2 with
    | some proxs => proxs.flatMap (fun prox =>
        if prox != p.2 then
          [⟨mkStr (replaceAt name.toList p.1 [prox]) ++ "." ++ tld, "keyboard_proximity"⟩]
        else [])
    | none => [])

/-- Embeds `_combosquatting`: hyphenated and plain keyword prefixes and
suffixes for every keyword. -/
def combosquatting (name tld : String) : List Variation :=
  COMBO_KEYWORDS.flatMap (fun keyword =>
    [⟨keyword ++ "-" ++ name ++ "." ++ tld, "combosquatting_prefix"⟩,
     ⟨keyword ++ name ++ "." ++ tld, "combosquatting_prefix"⟩,
     ⟨name ++ "-" ++ keyword ++ "." ++ tld, "combosquatting_suffix"⟩,
     ⟨name ++ keyword ++ "." ++ tld, "combosquatting_suffix"⟩])

/-- Embeds `_tld_variations`: swap in every TLD from `COMMON_TLDS` other than
the original. -/
def tld_variations (name tld : String) : List Variation :=
  COMMON_TLDS.flatMap (fun t =>
    if t != tld then [⟨name ++ "." ++ t, "tld_variation"⟩] else [])

/-- Embeds `_homograph_attack`: substitute every homograph from `HOMOGRAPHS`
for each character that has an entry. -/
def homograph_attack (name tld : String) : List Variation :=
  name.toList.enum.flatMap (fun p =>
    match lookupTable HOMOGRAPHS p.2 with
    | some hs => hs.map (fun h =>
        ⟨mkStr (replaceAt name.toList p.1 h.toList) ++ "." ++ tld, "homograph_attack"⟩)
    | none => [])

/-- Embeds `_subdomain_variations`: prepend each suspicious subdomain label
(the source's local list, which excludes `www`). -/
def subdomain_variations (name tld : String) : List Variation :=
  (["secure", "login", "auth", "mail", "webmail", "admin", "portal", "app", "api"]).map
    (fun s => ⟨s ++ "." ++ name ++ "." ++ tld, "subdomain_variation"⟩)

/-- The concatenation of all ten passes in the order
`generate_all_variations` extends its `variations` list. -/
def all_variations (name tld : String) : List Variation :=
  typosquatting_omission name tld ++
  typosquatting_repetition name tld ++
  typosquatting_substitution name tld ++
  typosquatting_insertion name tld ++
  idn_homograph_attacks name tld ++
  keyboard_proximity_variations name tld ++
  combosquatting name tld ++
  tld_variations name tld ++
  homograph_attack name tld ++
  subdomain_variations name tld

/-- The order-preserving duplicate removal from `generate_all_variations`:
a `seen` set of domain strings (modelled as a list with membership) filters
out any variation whose domain was already seen. -/
def dedup_variations (seen : List String) : List Variation → List Variation
  | [] => []
  | v :: rest =>
      if v.domain ∈ seen then dedup_variations seen rest
      else v :: dedup_variations (v.domain :: seen) rest

/-- The `seen` set after the dedup loop has processed `l`, starting from
`seen` (used to split the dedup of a concatenation). -/
def seen_after (seen : List String) (l : List Variation) : List String :=
  l.foldl (fun s v => if v.domain ∈ s then s else v.domain :: s) seen

/-- Embeds `DomainVariationGenerator.generate_all_variations` applied to a
domain already parsed by `tldextract` into registrable name and TLD suffix
(for `examplebank.com`, `name = "examplebank"` and `tld = "com"`; the parsed
subdomain is never used by the generation passes): concatenate all passes,
remove duplicate domains preserving first-seen order, truncate to
`max_variations`. -/
def generate_all_variations (name tld : String) (max_variations : Nat) : List Variation :=
  (dedup_variations [] (all_variations name tld)).take max_variations

/-! ## Risk scorer (`backend/risk_scorer.py`)

Python float arithmetic is modelled with exact rationals; `round(x, 2)` is
modelled by `round2` below (round-half-to-even on the exact value, as Python
rounds). -/

/-- The `ssl_info` dict consumed by `RiskScorer._score_ssl`: `error` holds
when the dict has an `error` key, `isEmpty` when the dict is `{}` (falsy),
`issuerOrganizationName` is `ssl_info['issuer']['organizationName']` (or `""`
when absent), and `notBefore` is `ssl_info.get('not_before')`. -/
structure SSLInfo where
  error : Bool
  isEmpty : Bool
  issuerOrganizationName : String
  notBefore : Option String
deriving DecidableEq

/-- The `blacklist_results` dict consumed by `RiskScorer._score_blacklists`:
`error` holds when the dict has an `error` key; the three flags are the
truthiness of the corresponding feed keys. -/
structure BlacklistResults where
  error : Bool
  phishtank : Bool
  openphish : Bool
  urlhaus : Bool
deriving DecidableEq

/-- Weight of the domain-age factor (`RiskScorer.WEIGHTS['domain_age']`). -/
def WEIGHTS_domain_age : ℚ := 0.40

/-- Weight of the visual-similarity factor. -/
def WEIGHTS_visual_similarity : ℚ := 0.25

/-- Weight of the content-analysis factor. -/
def WEIGHTS_content_analysis : ℚ := 0.15

/-- Weight of the SSL-certificate factor. -/
def WEIGHTS_ssl_certificate : ℚ := 0.10

/-- Weight of the blacklist factor. -/
def WEIGHTS_blacklist_check : ℚ := 0.10

/-- Embeds `RiskScorer._score_domain_age` (`None` maps to the neutral 50). -/
def score_domain_age (age_days : Option ℤ) : ℚ :=
  match age_days with
  | none => 50
  | some age =>
      if age < 7 then 100
      else if age < 30 then 90
      else if age < 90 then 70
      else if age < 180 then 50
      else if age < 365 then 30
      else 10

/-- Embeds `RiskScorer._score_visual_similarity` (`None` maps to the
neutral 50). -/
def score_visual_similarity (similarity : Option ℚ) : ℚ :=
  match similarity with
  | none => 50
  | some s =>
      if 80 ≤ s then 95
      else if 60 ≤ s then 75
      else if 40 ≤ s then 50
      else if 20 ≤ s then 25
      else 10

/-- Embeds `RiskScorer._score_content`: base is the content similarity (50
when `None`), plus 30 for a login form, plus 40 for a payment form, capped at
100 (Python truthiness: only `Some true` counts). -/
def score_content (content_similarity : Option ℚ)
    (has_login_form has_payment_form : Option Bool) : ℚ :=
  let score := match content_similarity with
    | some c => c
    | none => 50
  let score := if has_login_form = some true then score + 30 else score
  let score := if has_payment_form = some true then score + 40 else score
  min score 100

/-- Python substring containment `needle in hay` on strings. -/
def str_contains (hay needle : String) : Bool :=
  hay.toList.tails.any (fun t => needle.toList.isPrefixOf t)

/-- Embeds `RiskScorer._score_ssl`: missing, errored or empty `ssl_info`
scores 80; otherwise base 20, plus 30 when the issuer organization contains a
free-CA name, plus 10 when a `not_before` date is present (truthy), capped at
100. -/
def score_ssl (ssl_info : Option SSLInfo) : ℚ :=
  match ssl_info with
  | none => 80
  | some info =>
      if info.error || info.isEmpty then 80
      else
        let org := info.issuerOrganizationName.toLower
        let score : ℚ := 20
        let score :=
          if str_contains org ("let\x27s encrypt") || str_contains org ("cloudflare") then
            score + 30
          else score
        let score := match info.notBefore with
          | some nb => if nb ≠ "" then score + 10 else score
          | none => score
        min score 100

/-- Embeds `RiskScorer._score_blacklists`: missing or errored results score
0 (the source comment: cannot check, no score); any feed hit sets the score
to 100. -/
def score_blacklists (blacklist_results : Option BlacklistResults) : ℚ :=
  match blacklist_results with
  | none => 0
  | some r =>
      if r.error then 0
      else
        let score : ℚ := 0
        let score := if r.phishtank then (100 : ℚ) else score
        let score := if r.openphish then (100 : ℚ) else score
        let score := if r.urlhaus then (100 : ℚ) else score
        score

/-- Embeds `RiskScorer._determine_risk_level` with the two configured
thresholds (`settings.RISK_THRESHOLD_HIGH = 75`,
`settings.RISK_THRESHOLD_MEDIUM = 50` by default). -/
def determine_risk_level (threshold_high threshold_medium score : ℚ) : String :=
  if threshold_high ≤ score then "HIGH"
  else if threshold_medium ≤ score then "MEDIUM"
  else "LOW"

/-- Round half to even at the second decimal, the behaviour of Python's
`round(x, 2)` on exact values (Python applies it to floats; this embedding
works on the exact rationals). -/
def round2 (q : ℚ) : ℚ :=
  let s := q * 100
  let f : ℤ := ⌊s⌋
  let n : ℤ :=
    if 1/2 < s - f then f + 1
    else if s - f < 1/2 then f
    else if f % 2 = 0 then f else f + 1
  (n : ℚ) / 100

/-- One factor entry of the `components` dict returned by
`RiskScorer.calculate_risk_score`. -/
structure ComponentScore where
  score : ℚ
  weight : ℚ
  contribution : ℚ
deriving DecidableEq

/-- The `components` dict returned by `RiskScorer.calculate_risk_score`. -/
structure RiskComponents where
  domain_age : ComponentScore
  visual_similarity : ComponentScore
  content_analysis : ComponentScore
  ssl_certificate : ComponentScore
  blacklist : ComponentScore
deriving DecidableEq

/-- The dict returned by `RiskScorer.calculate_risk_score`. -/
structure RiskScoreResult where
  total_score : ℚ
  risk_level : String
  components : RiskComponents
deriving DecidableEq

/-- Embeds `RiskScorer.calculate_risk_score`: the weighted linear combination
of the five sub-scores, rounded to two decimals, with the per-factor
breakdown.  `whois_info` is accepted and ignored exactly as in the source. -/
def calculate_risk_score (threshold_high threshold_medium : ℚ)
    (domain_age_days : Option ℤ) (visual_similarity : Option ℚ)
    (content_similarity : Option ℚ) (has_login_form has_payment_form : Option Bool)
    (ssl_info : Option SSLInfo) (blacklist_results : Option BlacklistResults)
    (whois_info : Option Unit) : RiskScoreResult :=
  let _ := whois_info
  let domain_age_score := score_domain_age domain_age_days
  let visual_similarity_score := score_visual_similarity visual_similarity
  let content_score := score_content content_similarity has_login_form has_payment_form
  let ssl_score := score_ssl ssl_info
  let blacklist_score := score_blacklists blacklist_results
  let total_score :=
    domain_age_score * WEIGHTS_domain_age +
    visual_similarity_score * WEIGHTS_visual_similarity +
    content_score * WEIGHTS_content_analysis +
    ssl_score * WEIGHTS_ssl_certificate +
    blacklist_score * WEIGHTS_blacklist_check
  { total_score := round2 total_score
    risk_level := determine_risk_level threshold_high threshold_medium total_score
    components :=
      { domain_age :=
          ⟨round2 domain_age_score, WEIGHTS_domain_age,
            round2 (domain_age_score * WEIGHTS_domain_age)⟩
        visual_similarity :=
          ⟨round2 visual_similarity_score, WEIGHTS_visual_similarity,
            round2 (visual_similarity_score * WEIGHTS_visual_similarity)⟩
        content_analysis :=
          ⟨round2 content_score, WEIGHTS_content_analysis,
            round2 (content_score * WEIGHTS_content_analysis)⟩
        ssl_certificate :=
          ⟨round2 ssl_score, WEIGHTS_ssl_certificate,
            round2 (ssl_score * WEIGHTS_ssl_certificate)⟩
        blacklist :=
          ⟨round2 blacklist_score, WEIGHTS_blacklist_check,
            round2 (blacklist_score * WEIGHTS_blacklist_check)⟩ } }

/-! ## Long-term monitoring scheduler (`backend/long_term_monitor.py`) -/

/-- A `MonitoringSchedule` row as read by the due-selection sweep
(timestamps are modelled as integers; only the columns the query touches are
kept). -/
structure MonitoringSchedule where
  domain : String
  cse_domain_id : ℤ
  is_active : Bool
  next_check : ℤ
  end_date : ℤ
deriving DecidableEq

/-- Embeds the query in `LongTermMonitor.get_domains_for_monitoring`: filter
the schedule table by
`is_active == True AND next_check <= now AND end_date > now`. -/
def get_domains_for_monitoring (now : ℤ) (schedules : List MonitoringSchedule) :
    List MonitoringSchedule :=
  schedules.filter (fun s => s.is_active && decide (s.next_check ≤ now) && decide (now < s.end_date))


/-! ## Lemmas about the duplicate-removal loop -/

theorem dedup_variations_sublist (seen : List String) (l : List Variation) :
    (dedup_variations seen l).Sublist l := by
  induction l generalizing seen with
  | nil => simp [dedup_variations]
  | cons v rest ih =>
      simp only [dedup_variations]
      split
      · exact (ih seen).cons v
      · exact (ih (v.domain :: seen)).cons₂ v

theorem mem_of_mem_dedup_variations {seen : List String} {l : List Variation} {v : Variation}
    (h : v ∈ dedup_variations seen l) : v ∈ l :=
  (dedup_variations_sublist seen l).subset h

theorem not_seen_of_mem_dedup_variations {seen : List String} {l : List Variation} {v : Variation}
    (h : v ∈ dedup_variations seen l) : v.domain ∉ seen := by
  induction l generalizing seen with
  | nil => simp [dedup_variations] at h
  | cons w rest ih =>
      simp only [dedup_variations] at h
      split at h
      · exact ih h
      · rcases List.mem_cons.mp h with h1 | h1
        · subst h1; assumption
        · exact fun hs => ih h1 (List.mem_cons_of_mem _ hs)

theorem dedup_variations_domains_nodup (seen : List String) (l : List Variation) :
    ((dedup_variations seen l).map (·.domain)).Nodup := by
  induction l generalizing seen with
  | nil => simp [dedup_variations]
  | cons v rest ih =>
      simp only [dedup_variations]
      split
      · exact ih seen
      · simp only [List.map_cons, List.nodup_cons]
        refine ⟨?_, ih (v.domain :: seen)⟩
        intro hmem
        obtain ⟨w, hw, hdom⟩ := List.mem_map.mp hmem
        exact not_seen_of_mem_dedup_variations hw (hdom ▸ List.mem_cons_self _ _)

theorem mem_seen_after_of_mem_seen {seen : List String} (l : List Variation) {d : String}
    (h : d ∈ seen) : d ∈ seen_after seen l := by
  induction l generalizing seen with
  | nil => exact h
  | cons v rest ih =>
      show d ∈ seen_after (if v.domain ∈ seen then seen else v.domain :: seen) rest
      apply ih
      split
      · exact h
      · exact List.mem_cons_of_mem _ h

theorem mem_seen_after_of_mem_domains {seen : List String} {l : List Variation} {d : String}
    (h : d ∈ l.map (·.domain)) : d ∈ seen_after seen l := by
  induction l generalizing seen with
  | nil => simp at h
  | cons v rest ih =>
      show d ∈ seen_after (if v.domain ∈ seen then seen else v.domain :: seen) rest
      simp only [List.map_cons, List.mem_cons] at h
      rcases h with h1 | h1
      · subst h1
        apply mem_seen_after_of_mem_seen
        split
        · assumption
        · exact List.mem_cons_self _ _
      · exact ih h1

theorem dedup_variations_eq_nil_of_all_seen {seen : List String} {l : List Variation}
    (h : ∀ v ∈ l, v.domain ∈ seen) : dedup_variations seen l = [] := by
  induction l with
  | nil => rfl
  | cons v rest ih =>
      simp only [dedup_variations]
      rw [if_pos (h v (List.mem_cons_self _ _))]
      exact ih (fun w hw => h w (List.mem_cons_of_mem _ hw))

theorem dedup_variations_append (seen : List String) (l1 l2 : List Variation) :
    dedup_variations seen (l1 ++ l2) =
      dedup_variations seen l1 ++ dedup_variations (seen_after seen l1) l2 := by
  induction l1 generalizing seen with
  | nil => rfl
  | cons v rest ih =>
      by_cases h : v.domain ∈ seen
      · have hsa : seen_after seen (v :: rest) = seen_after seen rest := by
          show seen_after (if v.domain ∈ seen then seen else v.domain :: seen) rest = _
          rw [if_pos h]
        rw [List.cons_append]
        simp only [dedup_variations, if_pos h]
        rw [ih, hsa]
      · have hsa : seen_after seen (v :: rest) = seen_after (v.domain :: seen) rest := by
          show seen_after (if v.domain ∈ seen then seen else v.domain :: seen) rest = _
          rw [if_neg h]
        rw [List.cons_append]
        simp only [dedup_variations, if_neg h]
        rw [ih, hsa, List.cons_append]

theorem mem_domains_dedup_iff {seen : List String} {l : List Variation} {d : String}
    (hd : d ∉ seen) :
    d ∈ (dedup_variations seen l).map (·.domain) ↔ d ∈ l.map (·.domain) := by
  induction l generalizing seen with
  | nil => simp [dedup_variations]
  | cons v rest ih =>
      simp only [dedup_variations]
      by_cases h : v.domain ∈ seen
      · rw [if_pos h, ih hd]
        simp only [List.map_cons, List.mem_cons]
        constructor
        · exact Or.inr
        · rintro (h1 | h1)
          · exact absurd h (h1 ▸ hd)
          · exact h1
      · rw [if_neg h]
        simp only [List.map_cons, List.mem_cons]
        by_cases hdv : d = v.domain
        · simp [hdv]
        · have hd2 : d ∉ v.domain :: seen := by
            simp only [List.mem_cons]
            push_neg
            exact ⟨hdv, hd⟩
          rw [ih hd2]

/-! ## Technique tags carried by each pass -/

theorem type_of_mem_omission {name tld : String} {v : Variation}
    (h : v ∈ typosquatting_omission name tld) : v.type = "typosquatting_omission" := by
  simp only [typosquatting_omission, List.mem_flatMap, List.mem_range] at h
  obtain ⟨i, _, hv⟩ := h
  split at hv
  · rcases List.mem_singleton.mp hv with rfl
    rfl
  · simp at hv

theorem type_of_mem_repetition {name tld : String} {v : Variation}
    (h : v ∈ typosquatting_repetition name tld) : v.type = "typosquatting_repetition" := by
  simp only [typosquatting_repetition, List.mem_map, List.mem_range] at h
  obtain ⟨i, _, rfl⟩ := h
  rfl

theorem type_of_mem_substitution {name tld : String} {v : Variation}
    (h : v ∈ typosquatting_substitution name tld) : v.type = "typosquatting_substitution" := by
  simp only [typosquatting_substitution, List.mem_flatMap] at h
  obtain ⟨p, _, hv⟩ := h
  cases hm : lookupTable CHAR_SUBSTITUTIONS p.2 with
  | none => rw [hm] at hv; simp at hv
  | some subs =>
      rw [hm] at hv
      obtain ⟨s, _, rfl⟩ := List.mem_map.mp hv
      rfl

theorem type_of_mem_insertion {name tld : String} {v : Variation}
    (h : v ∈ typosquatting_insertion name tld) : v.type = "typosquatting_insertion" := by
  simp only [typosquatting_insertion, List.mem_map, List.mem_range] at h
  obtain ⟨i, _, rfl⟩ := h
  rfl

theorem type_of_mem_idn {name tld : String} {v : Variation}
    (h : v ∈ idn_homograph_attacks name tld) : v.type = "idn_homograph" := by
  simp only [idn_homograph_attacks, List.mem_flatMap] at h
  obtain ⟨p, _, hv⟩ := h
  cases hm : lookupTable IDN_HOMOGRAPHS p.2.toLower with
  | none => rw [hm] at hv; simp at hv
  | some hs =>
      rw [hm] at hv
      obtain ⟨s, _, rfl⟩ := List.mem_map.mp hv
      rfl

theorem type_of_mem_keyboard {name tld : String} {v : Variation}
    (h : v ∈ keyboard_proximity_variations name tld) : v.type = "keyboard_proximity" := by
  simp only [keyboard_proximity_variations, List.mem_flatMap] at h
  obtain ⟨p, _, hv⟩ := h
  cases hm : lookupKeyboard KEYBOARD_PROXIMITY p.2 with
  | none => rw [hm] at hv; simp at hv
  | some proxs =>
      rw [hm] at hv
      simp only [List.mem_flatMap] at hv
      obtain ⟨prox, _, hv2⟩ := hv
      split at hv2
      · rcases List.mem_singleton.mp hv2 with rfl
        rfl
      · simp at hv2

theorem type_of_mem_combosquatting {name tld : String} {v : Variation}
    (h : v ∈ combosquatting name tld) :
    v.type = "combosquatting_prefix" ∨ v.type = "combosquatting_suffix" := by
  simp only [combosquatting, List.mem_flatMap] at h
  obtain ⟨k, _, hv⟩ := h
  simp only [List.mem_cons, List.not_mem_nil, or_false] at hv
  rcases hv with rfl | rfl | rfl | rfl
  · exact Or.inl rfl
  · exact Or.inl rfl
  · exact Or.inr rfl
  · exact Or.inr rfl

theorem type_of_mem_tld_variations {name tld : String} {v : Variation}
    (h : v ∈ tld_variations name tld) : v.type = "tld_variation" := by
  simp only [tld_variations, List.mem_flatMap] at h
  obtain ⟨t, _, hv⟩ := h
  split at hv
  · rcases List.mem_singleton.mp hv with rfl
    rfl
  · simp at hv

theorem type_of_mem_homograph {name tld : String} {v : Variation}
    (h : v ∈ homograph_attack name tld) : v.type = "homograph_attack" := by
  simp only [homograph_attack, List.mem_flatMap] at h
  obtain ⟨p, _, hv⟩ := h
  cases hm : lookupTable HOMOGRAPHS p.2 with
  | none => rw [hm] at hv; simp at hv
  | some hs =>
      rw [hm] at hv
      obtain ⟨s, _, rfl⟩ := List.mem_map.mp hv
      rfl

theorem type_of_mem_subdomain {name tld : String} {v : Variation}
    (h : v ∈ subdomain_variations name tld) : v.type = "subdomain_variation" := by
  simp only [subdomain_variations, List.mem_map] at h
  obtain ⟨s, _, rfl⟩ := h
  rfl

/-- The insertion pass produces exactly the repetition pass's domain strings
(the two source methods build the same `name[:i] + name[i] + name[i:]`
splice and differ only in the technique tag). -/
theorem insertion_domains_eq_repetition_domains (name tld : String) :
    (typosquatting_insertion name tld).map (·.domain) =
      (typosquatting_repetition name tld).map (·.domain) := by
  simp only [typosquatting_insertion, typosquatting_repetition, List.map_map]
  rfl

/-! ## Claim theorems for the variation generator -/

/-- C6: for every parsed input domain (registrable name and TLD) and every
limit `n`, the generator output has length at most `n`, contains no two
candidates with the same domain string, and is an order-preserving
subsequence of the concatenated technique passes (duplicates removed keeping
the first occurrence). -/
theorem c6_generator_bounded_and_unique (name tld : String) (n : Nat) :
    (generate_all_variations name tld n).length ≤ n ∧
    ((generate_all_variations name tld n).map (·.domain)).Nodup ∧
    (generate_all_variations name tld n).Sublist (all_variations name tld) := by
  refine ⟨List.length_take_le _ _, ?_, ?_⟩
  · have h1 : (generate_all_variations name tld n).Sublist
        (dedup_variations [] (all_variations name tld)) := List.take_sublist _ _
    exact List.Nodup.sublist (h1.map (·.domain)) (dedup_variations_domains_nodup [] _)
  · exact (List.take_sublist _ _).trans (dedup_variations_sublist [] _)

/-- A flatMap of singletons is a map (used to normalize the omission pass
once its guard is known to hold). -/
theorem flatMap_singleton_eq_map (l : List Nat) (f : Nat → Variation) :
    (l.flatMap fun x => [f x]) = l.map f := by
  induction l with
  | nil => rfl
  | cons a t ih => simp [ih]

/-- C9 counterexample: for the four-character name `abcd` the omission pass
emits `bcd.com`, whose remaining name `bcd` has exactly 3 characters, so a
candidate whose remaining name would be ≤ 3 characters long is not skipped
(the source guard tests the original name's length, not the remaining
length). -/
theorem c9_omission_counterexample :
    "bcd.com" ∈ (typosquatting_omission "abcd" "com").map (·.domain) ∧
    "bcd".toList.length ≤ 3 := by
  constructor
  · decide
  · decide

/-- C9 (amended): the omission pass drops each character position exactly
once, and the skip applies exactly when the original registrable name is
≤ 3 characters long (equivalently, when the remaining name would be ≤ 2
characters), not when the remaining name would be ≤ 3. -/
theorem c9_omission_skip_rule (name tld : String) :
    ((typosquatting_omission name tld = []) ↔ name.toList.length ≤ 3) ∧
    (3 < name.toList.length →
      (typosquatting_omission name tld).map (·.domain) =
        (List.range name.toList.length).map
          (fun i => mkStr (name.toList.take i ++ name.toList.drop (i+1)) ++ "." ++ tld)) := by
  have hmap : 3 < name.toList.length →
      typosquatting_omission name tld =
        (List.range name.toList.length).map
          (fun i => ⟨mkStr (name.toList.take i ++ name.toList.drop (i+1)) ++ "." ++ tld,
            "typosquatting_omission"⟩) := by
    intro hlen
    simp only [typosquatting_omission, if_pos (by omega : name.toList.length > 3)]
    exact flatMap_singleton_eq_map _ _
  constructor
  · constructor
    · intro h
      by_contra hlen
      push_neg at hlen
      rw [hmap hlen] at h
      have hl := congrArg List.length h
      simp only [List.length_map, List.length_range, List.length_nil] at hl
      omega
    · intro hlen
      simp only [typosquatting_omission,
        if_neg (by omega : ¬ name.toList.length > 3)]
      simp
  · intro hlen
    rw [hmap hlen, List.map_map]
    rfl

/-- Witness for the amended C9 at the five-character name `abcde`. -/
theorem c9_omission_skip_rule_witness :
    (typosquatting_omission "abcde" "com").map (·.domain) =
      ["bcde.com", "acde.com", "abde.com", "abce.com", "abcd.com"] := by
  rw [(c9_omission_skip_rule "abcde" "com").2 (by decide)]
  decide

/-- C10: the insertion pass emits exactly the repetition pass's domain
strings, and since the repetition pass precedes the insertion pass in
`generate_all_variations`, the order-preserving duplicate removal drops every
insertion-tagged candidate: no candidate in any final output carries the
`typosquatting_insertion` tag. -/
theorem c10_insertion_shadowed_by_repetition (name tld : String) (n : Nat) :
    (typosquatting_insertion name tld).map (·.domain) =
      (typosquatting_repetition name tld).map (·.domain) ∧
    ∀ v ∈ generate_all_variations name tld n, v.type ≠ "typosquatting_insertion" := by
  refine ⟨insertion_domains_eq_repetition_domains name tld, ?_⟩
  intro v hv
  have hv1 : v ∈ dedup_variations [] (all_variations name tld) :=
    (List.take_sublist _ _).subset hv
  have hsplit : all_variations name tld =
      (typosquatting_omission name tld ++ typosquatting_repetition name tld ++
        typosquatting_substitution name tld) ++
      (typosquatting_insertion name tld ++
        (idn_homograph_attacks name tld ++ keyboard_proximity_variations name tld ++
          combosquatting name tld ++ tld_variations name tld ++
          homograph_attack name tld ++ subdomain_variations name tld)) := by
    simp only [all_variations, List.append_assoc]
  rw [hsplit, dedup_variations_append] at hv1
  rw [dedup_variations_append _ (typosquatting_insertion name tld) _] at hv1
  have hins : dedup_variations
      (seen_after []
        (typosquatting_omission name tld ++ typosquatting_repetition name tld ++
          typosquatting_substitution name tld))
      (typosquatting_insertion name tld) = [] := by
    apply dedup_variations_eq_nil_of_all_seen
    intro w hw
    apply mem_seen_after_of_mem_domains
    have hwdom : w.domain ∈ (typosquatting_repetition name tld).map (·.domain) := by
      rw [← insertion_domains_eq_repetition_domains name tld]
      exact List.mem_map_of_mem _ hw
    simp only [List.map_append, List.mem_append]
    exact Or.inl (Or.inr hwdom)
  rw [hins] at hv1
  simp only [List.nil_append, List.mem_append] at hv1
  rcases hv1 with h | h
  · have hm := mem_of_mem_dedup_variations h
    simp only [List.mem_append] at hm
    rcases hm with (h1 | h1) | h1
    · rw [type_of_mem_omission h1]; decide
    · rw [type_of_mem_repetition h1]; decide
    · rw [type_of_mem_substitution h1]; decide
  · have hm := mem_of_mem_dedup_variations h
    simp only [List.mem_append] at hm
    rcases hm with ((((h1 | h1) | h1) | h1) | h1) | h1
    · rw [type_of_mem_idn h1]; decide
    · rw [type_of_mem_keyboard h1]; decide
    · rcases type_of_mem_combosquatting h1 with h2 | h2
      · rw [h2]; decide
      · rw [h2]; decide
    · rw [type_of_mem_tld_variations h1]; decide
    · rw [type_of_mem_homograph h1]; decide
    · rw [type_of_mem_subdomain h1]; decide

/-- Witness for C10: the first surviving candidate for `example.com` is the
omission-tagged `xample.com`, whose tag is not `typosquatting_insertion`. -/
theorem c10_insertion_shadowed_witness :
    Variation.type ⟨"xample.com", "typosquatting_omission"⟩ ≠ "typosquatting_insertion" :=
  (c10_insertion_shadowed_by_repetition "example" "com" 5).2
    ⟨"xample.com", "typosquatting_omission"⟩ (by decide)

/-- Membership transfer: a domain string absent from the concatenated passes
is absent from every generator output. -/
theorem not_mem_generate_of_not_mem_all {name tld : String} {n : Nat} {d : String}
    (h : d ∉ (all_variations name tld).map (·.domain)) :
    d ∉ (generate_all_variations name tld n).map (·.domain) := by
  intro hmem
  obtain ⟨v, hv, rfl⟩ := List.mem_map.mp hmem
  exact h (List.mem_map_of_mem _
    (mem_of_mem_dedup_variations ((List.take_sublist _ _).subset hv)))

/-- Membership transfer: a domain string occurring in the concatenated passes
occurs in the generator output once the limit covers the whole pass list. -/
theorem mem_generate_of_mem_all {name tld : String} {n : Nat} {d : String}
    (h1 : d ∈ (all_variations name tld).map (·.domain))
    (h2 : (all_variations name tld).length ≤ n) :
    d ∈ (generate_all_variations name tld n).map (·.domain) := by
  unfold generate_all_variations
  have hlen : (dedup_variations [] (all_variations name tld)).length ≤ n :=
    le_trans (dedup_variations_sublist [] _).length_le h2
  rw [List.take_of_length_le hlen]
  exact (mem_domains_dedup_iff (by simp)).mpr h1

/-- With `max_variations = 50` the output for `examplebank`/`com` is already
determined by the first five passes (omission, repetition, substitution,
insertion, IDN homographs), which contribute 60 distinct domains. -/
theorem generate_examplebank_50_eq :
    generate_all_variations "examplebank" "com" 50 =
      (dedup_variations []
        (typosquatting_omission "examplebank" "com" ++
         typosquatting_repetition "examplebank" "com" ++
         typosquatting_substitution "examplebank" "com" ++
         typosquatting_insertion "examplebank" "com" ++
         idn_homograph_attacks "examplebank" "com")).take 50 := by
  have hsplit : all_variations "examplebank" "com" =
      (typosquatting_omission "examplebank" "com" ++
       typosquatting_repetition "examplebank" "com" ++
       typosquatting_substitution "examplebank" "com" ++
       typosquatting_insertion "examplebank" "com" ++
       idn_homograph_attacks "examplebank" "com") ++
      (keyboard_proximity_variations "examplebank" "com" ++
       combosquatting "examplebank" "com" ++
       tld_variations "examplebank" "com" ++
       homograph_attack "examplebank" "com" ++
       subdomain_variations "examplebank" "com") := by
    simp only [all_variations, List.append_assoc]
  unfold generate_all_variations
  rw [hsplit, dedup_variations_append]
  exact List.take_append_of_le_length (by decide)

/-- C5 counterexample: for protected domain `examplebank.com`
(`tldextract` parse: name `examplebank`, suffix `com`) the output at
`max_results = 50` contains neither `exemplebank.com` nor `examplebank.net`,
and at `max_results = 100000` (the source default) the output contains
`examplebank.com` itself. -/
theorem c5_generator_counterexample :
    "exemplebank.com" ∉ (generate_all_variations "examplebank" "com" 50).map (·.domain) ∧
    "examplebank.net" ∉ (generate_all_variations "examplebank" "com" 50).map (·.domain) ∧
    "examplebank.com" ∈ (generate_all_variations "examplebank" "com" 100000).map (·.domain) := by
  refine ⟨not_mem_generate_of_not_mem_all (by decide), ?_, ?_⟩
  · rw [generate_examplebank_50_eq]
    decide
  · exact mem_generate_of_mem_all (by decide) (by decide)

/-- C5 (amended): for `examplebank.com` the generator never emits
`exemplebank.com` for any `max_results` (no substitution table maps `a` to
`e`); at `max_results = 50` the output contains neither `examplebank.net`
(TLD swaps come after the first 50 unique variations) nor `examplebank.com`;
and at `max_results = 100000` the output contains both `examplebank.net`
(TLD swap) and `examplebank.com` itself, the latter because the
`IDN_HOMOGRAPHS` entry for `l` is the plain ASCII letter `l`. -/
theorem c5_generator_scenario :
    (∀ n : Nat,
      "exemplebank.com" ∉ (generate_all_variations "examplebank" "com" n).map (·.domain)) ∧
    "examplebank.net" ∉ (generate_all_variations "examplebank" "com" 50).map (·.domain) ∧
    "examplebank.com" ∉ (generate_all_variations "examplebank" "com" 50).map (·.domain) ∧
    "examplebank.net" ∈ (generate_all_variations "examplebank" "com" 100000).map (·.domain) ∧
    "examplebank.com" ∈ (generate_all_variations "examplebank" "com" 100000).map (·.domain) := by
  refine ⟨fun n => not_mem_generate_of_not_mem_all (by decide), ?_, ?_, ?_, ?_⟩
  · rw [generate_examplebank_50_eq]
    decide
  · rw [generate_examplebank_50_eq]
    decide
  · exact mem_generate_of_mem_all (by decide) (by decide)
  · exact mem_generate_of_mem_all (by decide) (by decide)

/-! ## Bounds of the individual sub-scores -/

theorem score_domain_age_bounds (a : Option ℤ) :
    10 ≤ score_domain_age a ∧ score_domain_age a ≤ 100 := by
  cases a with
  | none => norm_num [score_domain_age]
  | some d =>
      simp only [score_domain_age]
      split_ifs <;> norm_num

theorem score_visual_similarity_bounds (s : Option ℚ) :
    10 ≤ score_visual_similarity s ∧ score_visual_similarity s ≤ 95 := by
  cases s with
  | none => norm_num [score_visual_similarity]
  | some v =>
      simp only [score_visual_similarity]
      split_ifs <;> norm_num

theorem score_content_bounds (c : Option ℚ) (l p : Option Bool)
    (hc : ∀ x, c = some x → 0 ≤ x ∧ x ≤ 100) :
    0 ≤ score_content c l p ∧ score_content c l p ≤ 100 := by
  refine ⟨?_, min_le_right _ _⟩
  cases c with
  | none =>
      simp only [score_content]
      split_ifs <;> norm_num
  | some x =>
      have hx := (hc x rfl).1
      simp only [score_content, le_min_iff]
      split_ifs <;> constructor <;> linarith

theorem score_ssl_bounds (i : Option SSLInfo) :
    0 ≤ score_ssl i ∧ score_ssl i ≤ 100 := by
  cases i with
  | none => norm_num [score_ssl]
  | some info =>
      simp only [score_ssl]
      by_cases h : (info.error || info.isEmpty) = true
      · rw [if_pos h]
        norm_num
      · rw [if_neg h]
        cases info.notBefore with
        | none =>
            simp only [le_min_iff, min_le_iff]
            split_ifs <;> norm_num
        | some nb =>
            simp only [le_min_iff, min_le_iff]
            split_ifs <;> norm_num

theorem score_blacklists_bounds (b : Option BlacklistResults) :
    0 ≤ score_blacklists b ∧ score_blacklists b ≤ 100 := by
  cases b with
  | none => norm_num [score_blacklists]
  | some r =>
      simp only [score_blacklists]
      split_ifs <;> norm_num

/-! ## Rounding lemmas -/

theorem round2_bounds (q : ℚ) :
    q - 1/100 ≤ round2 q ∧ round2 q ≤ q + 1/100 := by
  have h1 : (⌊q * 100⌋ : ℚ) ≤ q * 100 := Int.floor_le _
  have h2 : q * 100 < ⌊q * 100⌋ + 1 := Int.lt_floor_add_one _
  simp only [round2]
  split_ifs <;> constructor <;> push_cast <;> linarith

theorem round2_int (n : ℤ) : round2 (n : ℚ) = (n : ℚ) := by
  simp only [round2]
  have h1 : ((n : ℚ) * 100) = ((n * 100 : ℤ) : ℚ) := by push_cast; ring
  rw [h1, Int.floor_intCast, sub_self]
  norm_num

theorem round2_mono {x y : ℚ} (h : x ≤ y) : round2 x ≤ round2 y := by
  simp only [round2]
  have hf : ⌊x * 100⌋ ≤ ⌊y * 100⌋ := Int.floor_le_floor (by linarith)
  have h2x : x * 100 < ⌊x * 100⌋ + 1 := Int.lt_floor_add_one _
  have h1y : (⌊y * 100⌋ : ℚ) ≤ y * 100 := Int.floor_le _
  gcongr
  rcases lt_or_eq_of_le hf with hlt | heq
  · split_ifs <;> omega
  · rw [← heq]
    have hr : x * 100 - ⌊x * 100⌋ ≤ y * 100 - ⌊x * 100⌋ := by linarith
    split_ifs <;> first | omega | linarith

/-- The total score returned by `calculate_risk_score` is the rounded
weighted combination of the five sub-scores. -/
theorem calculate_risk_score_total (th tm : ℚ) (age : Option ℤ)
    (vis content : Option ℚ) (login payment : Option Bool)
    (ssl : Option SSLInfo) (bl : Option BlacklistResults) (whois : Option Unit) :
    (calculate_risk_score th tm age vis content login payment ssl bl whois).total_score =
      round2 (score_domain_age age * WEIGHTS_domain_age +
        score_visual_similarity vis * WEIGHTS_visual_similarity +
        score_content content login payment * WEIGHTS_content_analysis +
        score_ssl ssl * WEIGHTS_ssl_certificate +
        score_blacklists bl * WEIGHTS_blacklist_check) := rfl

/-! ## Claim theorems for the risk scorer -/

/-- C3: for every signal bundle whose content-similarity input (when
present) lies in 0..100, the composite `total_score` lies in [0, 100]. -/
theorem c3_score_range (th tm : ℚ) (age : Option ℤ) (vis content : Option ℚ)
    (login payment : Option Bool) (ssl : Option SSLInfo)
    (bl : Option BlacklistResults) (whois : Option Unit)
    (hc : ∀ x, content = some x → 0 ≤ x ∧ x ≤ 100) :
    0 ≤ (calculate_risk_score th tm age vis content login payment ssl bl whois).total_score ∧
    (calculate_risk_score th tm age vis content login payment ssl bl whois).total_score ≤ 100 := by
  have ha := score_domain_age_bounds age
  have hv := score_visual_similarity_bounds vis
  have hco := score_content_bounds content login payment hc
  have hs := score_ssl_bounds ssl
  have hb := score_blacklists_bounds bl
  have hr := round2_bounds (score_domain_age age * WEIGHTS_domain_age +
    score_visual_similarity vis * WEIGHTS_visual_similarity +
    score_content content login payment * WEIGHTS_content_analysis +
    score_ssl ssl * WEIGHTS_ssl_certificate +
    score_blacklists bl * WEIGHTS_blacklist_check)
  have hw1 : WEIGHTS_domain_age = 40/100 := by norm_num [WEIGHTS_domain_age]
  have hw2 : WEIGHTS_visual_similarity = 25/100 := by norm_num [WEIGHTS_visual_similarity]
  have hw3 : WEIGHTS_content_analysis = 15/100 := by norm_num [WEIGHTS_content_analysis]
  have hw4 : WEIGHTS_ssl_certificate = 10/100 := by norm_num [WEIGHTS_ssl_certificate]
  have hw5 : WEIGHTS_blacklist_check = 10/100 := by norm_num [WEIGHTS_blacklist_check]
  rw [calculate_risk_score_total]
  rw [hw1, hw2, hw3, hw4, hw5] at hr ⊢
  constructor <;> nlinarith [hr.1, hr.2, ha.1, ha.2, hv.1, hv.2, hco.1, hco.2, hs.1, hs.2, hb.1, hb.2]

/-- Witness for C3 at the all-missing signal bundle. -/
theorem c3_score_range_witness :
    0 ≤ (calculate_risk_score 75 50 none none none none none none none none).total_score ∧
    (calculate_risk_score 75 50 none none none none none none none none).total_score ≤ 100 :=
  c3_score_range 75 50 none none none none none none none none (fun _ hx => nomatch hx)

theorem score_visual_similarity_mono {v1 v2 : ℚ} (h : v1 ≤ v2) :
    score_visual_similarity (some v1) ≤ score_visual_similarity (some v2) := by
  simp only [score_visual_similarity]
  split_ifs <;> linarith

/-- C8: increasing the visual-similarity input while holding every other
signal fixed never decreases the composite total score. -/
theorem c8_visual_monotonicity (th tm : ℚ) (age : Option ℤ) (v1 v2 : ℚ)
    (content : Option ℚ) (login payment : Option Bool) (ssl : Option SSLInfo)
    (bl : Option BlacklistResults) (whois : Option Unit) (h : v1 ≤ v2) :
    (calculate_risk_score th tm age (some v1) content login payment ssl bl whois).total_score ≤
    (calculate_risk_score th tm age (some v2) content login payment ssl bl whois).total_score := by
  rw [calculate_risk_score_total, calculate_risk_score_total]
  apply round2_mono
  have hm := score_visual_similarity_mono h
  have hw : (0 : ℚ) ≤ WEIGHTS_visual_similarity := by norm_num [WEIGHTS_visual_similarity]
  have h2 := mul_le_mul_of_nonneg_right hm hw
  linarith

/-- Witness for C8 at visual similarities 10 and 20 with all other signals
missing. -/
theorem c8_visual_monotonicity_witness :
    (calculate_risk_score 75 50 none (some 10) none none none none none none).total_score ≤
    (calculate_risk_score 75 50 none (some 20) none none none none none none).total_score :=
  c8_visual_monotonicity 75 50 none 10 20 none none none none none none (by norm_num)

/-- C4 counterexample: on the all-missing signal bundle the blacklist
sub-score reported by the scorer is 0, not a neutral mid-range value: a
sub-score computed from a missing input is zero risk. -/
theorem c4_blacklist_zero_counterexample :
    (calculate_risk_score 75 50 none none none none none none none
      none).components.blacklist.score = 0 ∧
    score_blacklists none = 0 := by
  constructor
  · show round2 (score_blacklists none) = 0
    have h0 : score_blacklists none = ((0 : ℤ) : ℚ) := by norm_num [score_blacklists]
    rw [h0, round2_int]
    norm_num
  · rfl

/-- C4 (amended): the scorer is a total function on every signal bundle;
unknown domain age, visual similarity and content similarity map to the
neutral 50 and missing/invalid SSL maps to 80, but absent or errored
blacklist results map to 0 (no score), not to a mid-range value; on the
all-missing bundle the total is 48. -/
theorem c4_missing_signal_neutrality :
    score_domain_age none = 50 ∧
    score_visual_similarity none = 50 ∧
    score_content none none none = 50 ∧
    score_ssl none = 80 ∧
    score_blacklists none = 0 ∧
    (∀ r : BlacklistResults, r.error = true → score_blacklists (some r) = 0) ∧
    (calculate_risk_score 75 50 none none none none none none none none).total_score = 48 := by
  have hcontent : score_content none none none = 50 := by
    show min (50 : ℚ) 100 = 50
    norm_num
  refine ⟨rfl, rfl, hcontent, rfl, rfl, ?_, ?_⟩
  · intro r hr
    simp [score_blacklists, hr]
  · rw [calculate_risk_score_total, hcontent]
    have h48 : score_domain_age none * WEIGHTS_domain_age +
        score_visual_similarity none * WEIGHTS_visual_similarity +
        (50 : ℚ) * WEIGHTS_content_analysis +
        score_ssl none * WEIGHTS_ssl_certificate +
        score_blacklists none * WEIGHTS_blacklist_check = ((48 : ℤ) : ℚ) := by
      norm_num [score_domain_age, score_visual_similarity, score_ssl, score_blacklists,
        WEIGHTS_domain_age, WEIGHTS_visual_similarity, WEIGHTS_content_analysis,
        WEIGHTS_ssl_certificate, WEIGHTS_blacklist_check]
    rw [h48, round2_int]
    norm_num

/-- Witness for the amended C4: errored blacklist results score 0. -/
theorem c4_missing_signal_neutrality_witness :
    score_blacklists (some ⟨true, false, false, false⟩) = 0 :=
  c4_missing_signal_neutrality.2.2.2.2.2.1 ⟨true, false, false, false⟩ rfl

/-! ## Claim theorem for the monitoring scheduler -/

/-- C7: a schedule is selected by the due-selection sweep iff it is active,
its next-check time is ≤ now, and its end date is strictly after now; in
particular a schedule with `next_check` in the future is never selected, and
one whose `end_date` has passed is never selected regardless of
`next_check`. -/
theorem c7_due_selection (now : ℤ) (schedules : List MonitoringSchedule)
    (s : MonitoringSchedule) :
    (s ∈ get_domains_for_monitoring now schedules ↔
      s ∈ schedules ∧ s.is_active = true ∧ s.next_check ≤ now ∧ now < s.end_date) ∧
    (now < s.next_check → s ∉ get_domains_for_monitoring now schedules) ∧
    (s.end_date ≤ now → s ∉ get_domains_for_monitoring now schedules) := by
  have hiff : s ∈ get_domains_for_monitoring now schedules ↔
      s ∈ schedules ∧ s.is_active = true ∧ s.next_check ≤ now ∧ now < s.end_date := by
    simp [get_domains_for_monitoring, List.mem_filter, and_assoc]
  refine ⟨hiff, ?_, ?_⟩
  · intro hlt hmem
    have := (hiff.mp hmem).2.2.1
    omega
  · intro hle hmem
    have := (hiff.mp hmem).2.2.2
    omega

/-- Witness for C7: a schedule whose `next_check` is in the future is not
selected. -/
theorem c7_due_selection_witness :
    (⟨"suspect.example", 1, true, 10, 100⟩ : MonitoringSchedule) ∉
      get_domains_for_monitoring 5 [⟨"suspect.example", 1, true, 10, 100⟩] :=
  (c7_due_selection 5 [⟨"suspect.example", 1, true, 10, 100⟩]
    ⟨"suspect.example", 1, true, 10, 100⟩).2.1 (by decide)
